import Mathlib

/-!
Shallow embedding of `src/recognition/TongQiu_Siamese/train.py` from the
AD_Detection_Siamese repository, together with theorems settling the
frozen claims about it.

Modelling conventions:
* Real-valued tensors are modelled over `ℚ`.  The model, its forward pass
  and the optimizer live outside this file's scope: a contrastive batch is
  represented by the per-pair outputs that the loop actually consumes,
  namely the pairwise distance `F.pairwise_distance(embedding_1, embedding_2)`
  and the binary label; a triplet sample by the two distances
  anchor-positive / anchor-negative and the label.
* Python float accumulators that only ever hold sums of 0/1 indicators
  (`correct_predictions`, `total_negative_pairs`, ...) are modelled as `ℕ`.
* Mutation of `criterion.margin` and of the checkpoint state is threaded
  explicitly through the state records below.
-/

namespace ADSiamese

/-- One element of a contrastive batch as consumed by the training loop:
the pairwise distance between the two embeddings and the binary label. -/
structure Pair where
  dist : ℚ
  label : ℚ

/-- Mean of a list of rationals, as `sum(xs) / len(xs)` (0 on the empty list). -/
def listMean (xs : List ℚ) : ℚ := xs.sum / xs.length

/-- State of the `ContrastiveLoss` module (train.py lines 137-140): its only
attribute is `margin`. -/
structure ContrastiveLoss where
  margin : ℚ

/-- Batched `F.pairwise_distance`, parametrized by the per-row Euclidean
distance function `dist` (library code, external to the repository). -/
def pairwise_distance (dist : List ℚ → List ℚ → ℚ) (e1 e2 : List (List ℚ)) :
    List ℚ :=
  List.zipWith dist e1 e2

/-- ContrastiveLoss.forward (train.py lines 142-146): the two summands of the
elementwise tensor expression, combined pointwise and passed to `torch.mean`.
Returns the (unchanged) module state together with the scalar loss. -/
def ContrastiveLoss.forward (dist : List ℚ → List ℚ → ℚ) (self : ContrastiveLoss)
    (embedding1 embedding2 : List (List ℚ)) (label : List ℚ) :
    ContrastiveLoss × ℚ :=
  let euclidean_distance := pairwise_distance dist embedding1 embedding2
  let similarTerm := List.zipWith (fun d l => (1 - l) * d ^ 2) euclidean_distance label
  let dissimilarTerm :=
    List.zipWith (fun d l => l * max (self.margin - d) 0 ^ 2) euclidean_distance label
  (self, listMean (List.zipWith (· + ·) similarTerm dissimilarTerm))

/-- Per-pair contrastive loss contribution
`(1 - label) * dist^2 + label * max(margin - dist, 0)^2`. -/
def pairLoss (margin d l : ℚ) : ℚ :=
  (1 - l) * d ^ 2 + l * max (margin - d) 0 ^ 2

/-- Loss of one batch: `criterion(embedding_1, embedding_2, labels)` expressed
on the per-pair distances and labels. -/
def batchLoss (margin : ℚ) (b : List Pair) : ℚ :=
  listMean (b.map fun p => pairLoss margin p.dist p.label)

/-- The prediction for one pair (train.py line 80):
`(dists < threshold).float()` where the threshold is the criterion's margin. -/
def prediction (margin : ℚ) (p : Pair) : ℚ :=
  if p.dist < margin then 1 else 0

/-- Whether one pair contributes to `correct_predictions` (train.py line 81):
the float prediction compares equal to the float label. -/
def pairCorrect (margin : ℚ) (p : Pair) : Bool :=
  decide (prediction margin p = p.label)

/-- The per-epoch accumulator state of `train_contrastive`
(train.py lines 54-60), together with the criterion's margin, which the
batch loop reads as its threshold. -/
structure CState where
  margin : ℚ
  train_loss_lis : List ℚ
  correct_predictions : ℕ
  total_samples : ℕ
  negative_pairs_below_margin : ℕ
  total_negative_pairs : ℕ

/-- One iteration of the batch loop of `train_contrastive`
(train.py lines 62-88).  The model forward pass, `loss.backward()` and
`optimizer.step()` are external; the batch supplies the pairwise distances
and labels they produce.  The margin is read (lines 79, 87) and never
written inside the loop. -/
def contrastiveBatchStep (st : CState) (b : List Pair) : CState :=
  { st with
    train_loss_lis := st.train_loss_lis ++ [batchLoss st.margin b]
    correct_predictions := st.correct_predictions + b.countP (pairCorrect st.margin)
    total_samples := st.total_samples + b.length
    negative_pairs_below_margin := st.negative_pairs_below_margin +
      b.countP fun p => decide (p.dist < st.margin ∧ p.label = 0)
    total_negative_pairs := st.total_negative_pairs +
      b.countP fun p => decide (p.label = 0) }

/-- Initial accumulator state of an epoch (train.py lines 55-60). -/
def initCState (margin : ℚ) : CState :=
  ⟨margin, [], 0, 0, 0, 0⟩

/-- Result of one call of `train_contrastive`: the criterion's margin after
the epoch-end adaptation, the mean train loss and the accuracy. -/
structure TrainResult where
  margin : ℚ
  train_loss : ℚ
  accuracy : ℚ

/-- train_contrastive (train.py lines 54-102): fold the batch loop over the
epoch's batches, form the mean loss and the accuracy, then adapt the margin
once, at epoch end, from the proportion of negative pairs below it
(lines 94-97, with the `1e-10` guard of line 95). -/
def train_contrastive (margin : ℚ) (batches : List (List Pair)) : TrainResult :=
  let st := batches.foldl contrastiveBatchStep (initCState margin)
  let train_loss := listMean st.train_loss_lis
  let accuracy := (st.correct_predictions : ℚ) / (st.total_samples : ℚ)
  let proportion := (st.negative_pairs_below_margin : ℚ) /
    ((st.total_negative_pairs : ℚ) + 1 / 10 ^ 10)
  let margin2 := if proportion > 3 / 10 then st.margin * (9 / 10) else st.margin
  ⟨margin2, train_loss, accuracy⟩

/-- The state `validate_contrastive` can see but never writes: the criterion's
margin and the model's parameters (the latter abstract, since the model
lives outside the repository's train.py). -/
structure EvalState where
  margin : ℚ
  modelParams : ℕ

/-- One iteration of the batch loop of `validate_contrastive`
(train.py lines 112-125), accumulating total loss, correct predictions and
sample count. -/
def validateBatchStep (margin : ℚ) (acc : ℚ × ℕ × ℕ) (b : List Pair) :
    ℚ × ℕ × ℕ :=
  (acc.1 + batchLoss margin b,
   acc.2.1 + b.countP (pairCorrect margin),
   acc.2.2 + b.length)

/-- validate_contrastive (train.py lines 105-134): runs under
`torch.no_grad()`, accumulates the same statistics as training, divides the
total loss by the number of batches, and returns the state unchanged. -/
def validate_contrastive (st : EvalState) (batches : List (List Pair)) :
    EvalState × ℚ × ℚ :=
  let a := batches.foldl (validateBatchStep st.margin) (0, 0, 0)
  (st, a.1 / (batches.length : ℚ), (a.2.1 : ℚ) / (a.2.2 : ℚ))

/-- One element of a triplet batch as consumed by the loops
(train.py lines 208-212): the anchor-positive distance `dists_p`, the
anchor-negative distance `dists_n` and the label. -/
structure Triple where
  dp : ℚ
  dn : ℚ
  label : ℚ

/-- The per-sample value `predictions` of train.py line 212:
`pred_diff * label + (1 - pred_diff) * (1 - label)` with
`pred_diff = (dists_p < dists_n).float()`. -/
def tripletPrediction (t : Triple) : ℚ :=
  let pred_diff : ℚ := if t.dp < t.dn then 1 else 0
  pred_diff * t.label + (1 - pred_diff) * (1 - t.label)

/-- Whether one triplet sample contributes to `correct_predictions`
(train.py line 214): `predictions == labels`. -/
def tripletCorrect (t : Triple) : Bool :=
  decide (tripletPrediction t = t.label)

/-- One batch of the triplet loops: the per-sample distances and labels,
plus the scalar value of `criterion(embedding_a, embedding_p, embedding_n)`
(the criterion is `torch.nn.TripletMarginLoss`, library code external to
the repository, so its value is carried as data). -/
structure TripletBatch where
  samples : List Triple
  loss : ℚ

/-- One iteration of the batch loop of `train_triplet`
(train.py lines 194-215), accumulating the loss list, the correct count and
the sample count. -/
def tripletBatchStep (acc : List ℚ × ℕ × ℕ) (b : TripletBatch) :
    List ℚ × ℕ × ℕ :=
  (acc.1 ++ [b.loss],
   acc.2.1 + b.samples.countP tripletCorrect,
   acc.2.2 + b.samples.length)

/-- train_triplet (train.py lines 188-223): returns the mean train loss and
the accuracy.  No margin state is involved. -/
def train_triplet (batches : List TripletBatch) : ℚ × ℚ :=
  let a := batches.foldl tripletBatchStep ([], 0, 0)
  (listMean a.1, (a.2.1 : ℚ) / (a.2.2 : ℚ))

/-- validate_triplet (train.py lines 226-257): the same accumulation under
`torch.no_grad()`, with the total loss divided by the number of batches. -/
def validate_triplet (batches : List TripletBatch) : ℚ × ℚ :=
  let a := batches.foldl tripletBatchStep ([], 0, 0)
  (a.1.sum / (batches.length : ℚ), (a.2.1 : ℚ) / (a.2.2 : ℚ))

/-- One epoch's worth of data for `main_contrastive`: the training and
validation batches the loaders yield, and an abstract tag standing for
`model.state_dict()` after this epoch's optimizer steps. -/
structure EpochData where
  trainBatches : List (List Pair)
  valBatches : List (List Pair)
  modelTag : ℕ

/-- The dictionary passed to `torch.save` (train.py lines 36-41 and
171-176): epoch index, model parameters, last train loss, validation
accuracy. -/
structure Checkpoint where
  epoch : ℕ
  model_state_dict : ℕ
  train_loss : ℚ
  val_acc : ℚ

/-- Loop state of `main_contrastive`: the criterion's margin (mutated across
epochs by `train_contrastive`), `best_score`, and the list of checkpoints
written so far. -/
structure MainState where
  margin : ℚ
  best_score : ℚ
  saved : List Checkpoint

/-- One epoch of `main_contrastive` (train.py lines 25-49): train (which may
adapt the margin), validate with the adapted margin, then write a
checkpoint and update `best_score` when the validation accuracy improves
on it (lines 32-43). -/
def mainContrastiveEpoch (st : MainState) (epoch : ℕ) (e : EpochData) :
    MainState :=
  let tr := train_contrastive st.margin e.trainBatches
  let val_batch_acc := (validate_contrastive ⟨tr.margin, e.modelTag⟩ e.valBatches).2.2
  if val_batch_acc > st.best_score then
    { margin := tr.margin
      best_score := val_batch_acc
      saved := st.saved ++ [⟨epoch, e.modelTag, tr.train_loss, val_batch_acc⟩] }
  else
    { st with margin := tr.margin }

/-- The epoch loop of `main_contrastive`, counting epochs from `epoch`. -/
def mainContrastiveGo (st : MainState) (epoch : ℕ) :
    List EpochData → MainState
  | [] => st
  | e :: rest => mainContrastiveGo (mainContrastiveEpoch st epoch e) (epoch + 1) rest

/-- main_contrastive (train.py lines 17-51): runs the epoch loop starting
from `best_score = 0` and no checkpoint written. -/
def main_contrastive (margin : ℚ) (epochsData : List EpochData) : MainState :=
  mainContrastiveGo ⟨margin, 0, []⟩ 0 epochsData

/-- One epoch's worth of data for `main_triplet`. -/
structure TripletEpochData where
  trainBatches : List TripletBatch
  valBatches : List TripletBatch
  modelTag : ℕ

/-- Loop state of `main_triplet`: `best_score` and the checkpoints written. -/
structure TMainState where
  best_score : ℚ
  saved : List Checkpoint

/-- One epoch of `main_triplet` (train.py lines 160-184): train, validate,
then write a checkpoint and update `best_score` when the validation
accuracy improves on it (lines 167-178). -/
def mainTripletEpoch (st : TMainState) (epoch : ℕ) (e : TripletEpochData) :
    TMainState :=
  let tr := train_triplet e.trainBatches
  let val_batch_acc := (validate_triplet e.valBatches).2
  if val_batch_acc > st.best_score then
    { best_score := val_batch_acc
      saved := st.saved ++ [⟨epoch, e.modelTag, tr.1, val_batch_acc⟩] }
  else
    st

/-- The epoch loop of `main_triplet`. -/
def mainTripletGo (st : TMainState) (epoch : ℕ) :
    List TripletEpochData → TMainState
  | [] => st
  | e :: rest => mainTripletGo (mainTripletEpoch st epoch e) (epoch + 1) rest

/-- main_triplet (train.py lines 152-186): runs the epoch loop starting from
`best_score = 0` and no checkpoint written. -/
def main_triplet (epochsData : List TripletEpochData) : TMainState :=
  mainTripletGo ⟨0, []⟩ 0 epochsData

/-- The per-epoch candidate checkpoints of `main_contrastive`: what would be
saved at each epoch, threading the margin exactly as the epoch loop does.
These outcomes do not depend on `best_score` or on earlier checkpoints. -/
def contrastiveOutcomes (margin : ℚ) (epoch : ℕ) :
    List EpochData → List Checkpoint
  | [] => []
  | e :: rest =>
    let tr := train_contrastive margin e.trainBatches
    let val_batch_acc := (validate_contrastive ⟨tr.margin, e.modelTag⟩ e.valBatches).2.2
    ⟨epoch, e.modelTag, tr.train_loss, val_batch_acc⟩ ::
      contrastiveOutcomes tr.margin (epoch + 1) rest

/-- The per-epoch candidate checkpoints of `main_triplet`. -/
def tripletOutcomes (epoch : ℕ) : List TripletEpochData → List Checkpoint
  | [] => []
  | e :: rest =>
    ⟨epoch, e.modelTag, (train_triplet e.trainBatches).1,
      (validate_triplet e.valBatches).2⟩ :: tripletOutcomes (epoch + 1) rest

/-- Modelled from the spec: a checkpoint is written if and only if its
validation accuracy strictly exceeds the best-so-far value, and in exactly
that case the best-so-far value becomes that accuracy. -/
def selectImproving (best : ℚ) : List Checkpoint → List Checkpoint
  | [] => []
  | c :: cs =>
    if c.val_acc > best then c :: selectImproving c.val_acc cs
    else selectImproving best cs

/-- The running best value under the spec's update rule. -/
def runningBest (best : ℚ) (cs : List Checkpoint) : ℚ :=
  cs.foldl (fun b c => max b c.val_acc) best

/-! ### Helper lemmas about the folds -/

theorem contrastiveBatchStep_foldl (batches : List (List Pair)) (st : CState) :
    batches.foldl contrastiveBatchStep st =
      ⟨st.margin,
       st.train_loss_lis ++ batches.map (batchLoss st.margin),
       st.correct_predictions + batches.flatten.countP (pairCorrect st.margin),
       st.total_samples + batches.flatten.length,
       st.negative_pairs_below_margin +
         batches.flatten.countP (fun p => decide (p.dist < st.margin ∧ p.label = 0)),
       st.total_negative_pairs + batches.flatten.countP (fun p => decide (p.label = 0))⟩ := by
  induction batches generalizing st with
  | nil => simp
  | cons b bs ih =>
    rw [List.foldl_cons, ih]
    simp [contrastiveBatchStep, List.countP_append, List.append_assoc,
      Nat.add_assoc]

theorem validateBatchStep_foldl (margin : ℚ) (batches : List (List Pair))
    (acc : ℚ × ℕ × ℕ) :
    batches.foldl (validateBatchStep margin) acc =
      (acc.1 + (batches.map (batchLoss margin)).sum,
       acc.2.1 + batches.flatten.countP (pairCorrect margin),
       acc.2.2 + batches.flatten.length) := by
  induction batches generalizing acc with
  | nil => simp
  | cons b bs ih =>
    rw [List.foldl_cons, ih]
    simp [validateBatchStep, List.countP_append, Nat.add_assoc]
    ring

theorem negBelow_le_totalNeg (margin : ℚ) (l : List Pair) :
    l.countP (fun p => decide (p.dist < margin ∧ p.label = 0)) ≤
      l.countP (fun p => decide (p.label = 0)) := by
  apply List.countP_mono_left
  intro p _ hp
  simp only [decide_eq_true_eq] at hp ⊢
  exact hp.2

theorem epsilon_threshold (a b : ℕ) (hab : a ≤ b) :
    ((a : ℚ) / ((b : ℚ) + 1 / 10 ^ 10) > 3 / 10) ↔
      ((a : ℚ) / (b : ℚ) > 3 / 10) := by
  rcases Nat.eq_zero_or_pos b with hb | hb
  · subst hb
    obtain rfl : a = 0 := Nat.le_zero.mp hab
    norm_num
  · have hbq : (0 : ℚ) < (b : ℚ) := by exact_mod_cast hb
    have hbe : (0 : ℚ) < (b : ℚ) + 1 / 10 ^ 10 := by positivity
    rw [gt_iff_lt, gt_iff_lt, div_lt_div_iff (by norm_num) hbe,
      div_lt_div_iff (by norm_num) hbq]
    constructor
    · intro h
      nlinarith [h]
    · intro h
      have hn : 3 * b < a * 10 := by exact_mod_cast h
      have hn1 : ((3 * b + 1 : ℕ) : ℚ) ≤ ((a * 10 : ℕ) : ℚ) := by
        exact_mod_cast hn
      push_cast at hn1
      nlinarith [hn1]

/-! ### Claim theorems -/

/-- C1: At the end of every contrastive training epoch, if the fraction of
pairs counted as negative whose distance fell below the current margin
exceeds 0.3, the margin is multiplied by 0.9; otherwise it is left
unchanged.  The batch loop itself never writes the margin, so it is
mutated at most once per epoch, only at epoch end. -/
theorem margin_adaptation_rule (margin : ℚ) (st : CState)
    (batches : List (List Pair)) :
    (batches.foldl contrastiveBatchStep st).margin = st.margin ∧
    (train_contrastive margin batches).margin =
      (if ((batches.flatten.countP fun p =>
              decide (p.dist < margin ∧ p.label = 0)) : ℚ) /
           ((batches.flatten.countP fun p => decide (p.label = 0)) : ℚ) > 3 / 10
       then margin * (9 / 10) else margin) := by
  constructor
  · rw [contrastiveBatchStep_foldl]
  · simp only [train_contrastive, contrastiveBatchStep_foldl, initCState,
      List.nil_append, Nat.zero_add]
    rw [if_congr
      (epsilon_threshold _ _ (negBelow_le_totalNeg margin batches.flatten))
      rfl rfl]

/-- C8: In an epoch with zero pairs counted as negative, the denominator of
the margin-adaptation fraction is nonzero (the additive `1e-10` guard), so
no division-by-zero occurs, and the margin is left unchanged. -/
theorem zero_negative_pairs_guard (margin : ℚ) (batches : List (List Pair))
    (h : batches.flatten.countP (fun p => decide (p.label = 0)) = 0) :
    (((batches.foldl contrastiveBatchStep
          (initCState margin)).total_negative_pairs : ℚ) + 1 / 10 ^ 10 ≠ 0) ∧
    (train_contrastive margin batches).margin = margin := by
  have hnb : batches.flatten.countP
      (fun p => decide (p.dist < margin ∧ p.label = 0)) = 0 :=
    Nat.le_zero.mp (h ▸ negBelow_le_totalNeg margin batches.flatten)
  constructor
  · rw [contrastiveBatchStep_foldl]
    simp only [initCState, Nat.zero_add, h]
    norm_num
  · simp only [train_contrastive, contrastiveBatchStep_foldl, initCState,
      List.nil_append, Nat.zero_add, h, hnb]
    norm_num

/-- Witness for the zero-negative-pair guard at a concrete epoch of one
batch holding a single pair with label 1. -/
theorem zero_negative_pairs_guard_witness :
    (([[(⟨1, 1⟩ : Pair)]] : List (List Pair)).flatten.countP
        (fun p => decide (p.label = 0)) = 0) ∧
    ((((([[(⟨1, 1⟩ : Pair)]] : List (List Pair)).foldl contrastiveBatchStep
          (initCState 2)).total_negative_pairs : ℚ) + 1 / 10 ^ 10 ≠ 0) ∧
     (train_contrastive 2 [[(⟨1, 1⟩ : Pair)]]).margin = 2) :=
  ⟨by decide, zero_negative_pairs_guard 2 [[⟨1, 1⟩]] (by decide)⟩

/-- C9: `validate_contrastive` returns the criterion's margin and the
model's parameters unchanged, and its loss and accuracy agree with the
statistics `train_contrastive` computes on the same batches from the same
margin. -/
theorem validate_contrastive_frame (st : EvalState)
    (batches : List (List Pair)) :
    (validate_contrastive st batches).1 = st ∧
    (validate_contrastive st batches).2.1 =
      (train_contrastive st.margin batches).train_loss ∧
    (validate_contrastive st batches).2.2 =
      (train_contrastive st.margin batches).accuracy := by
  refine ⟨rfl, ?_, ?_⟩
  · simp only [validate_contrastive, validateBatchStep_foldl, train_contrastive,
      contrastiveBatchStep_foldl, initCState, List.nil_append, Nat.zero_add,
      listMean, zero_add, List.length_map]
  · simp only [validate_contrastive, validateBatchStep_foldl, train_contrastive,
      contrastiveBatchStep_foldl, initCState, List.nil_append, Nat.zero_add]

/-- A pair contributes to `correct_predictions` exactly when the boolean
`dist < margin` matches the binary label read as a boolean. -/
theorem pairCorrect_iff (m : ℚ) (p : Pair)
    (hp : p.label = 0 ∨ p.label = 1) :
    pairCorrect m p = decide ((p.dist < m) ↔ p.label = 1) := by
  unfold pairCorrect prediction
  rcases hp with h | h <;> rw [h] <;> by_cases hd : p.dist < m <;>
    simp [hd]

/-- C4: over a batch with binary labels, the training and validation steps
increase `correct_predictions` by exactly the number of samples whose
boolean `distance < margin` equals the label, and `total_samples` by the
batch size. -/
theorem accuracy_accumulation (st : CState) (m : ℚ) (a : ℚ × ℕ × ℕ)
    (b : List Pair) (hb : ∀ p ∈ b, p.label = 0 ∨ p.label = 1) :
    (contrastiveBatchStep st b).correct_predictions =
      st.correct_predictions +
        b.countP (fun p => decide ((p.dist < st.margin) ↔ p.label = 1)) ∧
    (contrastiveBatchStep st b).total_samples = st.total_samples + b.length ∧
    (validateBatchStep m a b).2.1 =
      a.2.1 + b.countP (fun p => decide ((p.dist < m) ↔ p.label = 1)) ∧
    (validateBatchStep m a b).2.2 = a.2.2 + b.length := by
  have hc : ∀ m0 : ℚ, b.countP (pairCorrect m0) =
      b.countP (fun p => decide ((p.dist < m0) ↔ p.label = 1)) := by
    intro m0
    exact List.countP_congr fun p hp => by rw [pairCorrect_iff m0 p (hb p hp)]
  exact ⟨by simp [contrastiveBatchStep, hc], rfl, by simp [validateBatchStep, hc], rfl⟩

/-- Witness for the accuracy accumulation on a concrete two-pair batch with
margin 1, one similar pair at distance 0 and one dissimilar pair at
distance 2. -/
theorem accuracy_accumulation_witness :
    (∀ p ∈ [(⟨0, 0⟩ : Pair), ⟨2, 1⟩], p.label = 0 ∨ p.label = 1) ∧
    ((contrastiveBatchStep (initCState 1) [⟨0, 0⟩, ⟨2, 1⟩]).correct_predictions =
      (initCState 1).correct_predictions +
        List.countP (fun p => decide ((p.dist < (initCState 1).margin) ↔ p.label = 1))
          [(⟨0, 0⟩ : Pair), ⟨2, 1⟩] ∧
    (contrastiveBatchStep (initCState 1) [⟨0, 0⟩, ⟨2, 1⟩]).total_samples =
      (initCState 1).total_samples + ([(⟨0, 0⟩ : Pair), ⟨2, 1⟩]).length ∧
    (validateBatchStep 1 (0, 0, 0) [⟨0, 0⟩, ⟨2, 1⟩]).2.1 =
      (0, 0, 0).2.1 + List.countP (fun p => decide ((p.dist < 1) ↔ p.label = 1))
          [(⟨0, 0⟩ : Pair), ⟨2, 1⟩] ∧
    (validateBatchStep 1 ((0 : ℚ), (0 : ℕ), (0 : ℕ)) [⟨0, 0⟩, ⟨2, 1⟩]).2.2 =
      ((0 : ℚ), (0 : ℕ), (0 : ℕ)).2.2 + ([(⟨0, 0⟩ : Pair), ⟨2, 1⟩]).length) :=
  ⟨by decide, accuracy_accumulation (initCState 1) 1 (0, 0, 0) _ (by decide)⟩

/-- C5 counterexample: with margin 1, the pair at distance 2 with label 1
is not counted correct by the code, although under the claim's rule
(predicted dissimilar iff distance ≥ margin, compared to label 1 =
dissimilar) it would be. -/
theorem dissimilar_threshold_counterexample :
    ¬ ((contrastiveBatchStep (initCState 1) [⟨2, 1⟩]).correct_predictions =
        (initCState 1).correct_predictions +
          List.countP (fun p => decide ((p.dist ≥ (1 : ℚ)) ↔ p.label = 1))
            [(⟨2, 1⟩ : Pair)]) := by
  decide

/-- C5 amended: the code predicts 1 for a pair exactly when its distance is
strictly below the margin, so under the label convention 1 = dissimilar a
pair is predicted dissimilar iff distance < margin, and it is counted
correct iff (distance < margin) agrees with (label = 1). -/
theorem prediction_convention (st : CState) (b : List Pair)
    (hb : ∀ p ∈ b, p.label = 0 ∨ p.label = 1) :
    (∀ p ∈ b, (prediction st.margin p = 1 ↔ p.dist < st.margin)) ∧
    (contrastiveBatchStep st b).correct_predictions =
      st.correct_predictions +
        b.countP (fun p => decide ((p.dist < st.margin) ↔ p.label = 1)) := by
  constructor
  · intro p _
    unfold prediction
    by_cases hd : p.dist < st.margin <;> simp [hd]
  · have hc : b.countP (pairCorrect st.margin) =
        b.countP (fun p => decide ((p.dist < st.margin) ↔ p.label = 1)) :=
      List.countP_congr fun p hp => by rw [pairCorrect_iff st.margin p (hb p hp)]
    simp [contrastiveBatchStep, hc]

/-- Witness for the amended prediction convention on a single dissimilar
pair at distance 2 under margin 1. -/
theorem prediction_convention_witness :
    (∀ p ∈ [(⟨2, 1⟩ : Pair)], p.label = 0 ∨ p.label = 1) ∧
    ((∀ p ∈ [(⟨2, 1⟩ : Pair)],
        (prediction (initCState 1).margin p = 1 ↔ p.dist < (initCState 1).margin)) ∧
     (contrastiveBatchStep (initCState 1) [⟨2, 1⟩]).correct_predictions =
       (initCState 1).correct_predictions +
         List.countP (fun p => decide ((p.dist < (initCState 1).margin) ↔ p.label = 1))
           [(⟨2, 1⟩ : Pair)]) :=
  ⟨by decide, prediction_convention (initCState 1) [⟨2, 1⟩] (by decide)⟩

/-- C6 counterexample: a pair with label 1 below the margin is not counted
as a negative pair by the code, although the claim (negative = label 1)
says both negative-pair counters should include it. -/
theorem negative_label_counterexample :
    ¬ ((contrastiveBatchStep (initCState 1) [⟨1 / 10, 1⟩]).total_negative_pairs =
        (initCState 1).total_negative_pairs +
          List.countP (fun p => decide (p.label = 1)) [(⟨1 / 10, 1⟩ : Pair)]) := by
  decide

/-- C6 amended: the margin-adaptation counters of `train_contrastive` count
as negative exactly the pairs with label 0: `total_negative_pairs` grows by
the number of label-0 pairs and `negative_pairs_below_margin` by the number
of label-0 pairs with distance below the margin. -/
theorem negative_pair_counting (st : CState) (b : List Pair) :
    (contrastiveBatchStep st b).total_negative_pairs =
      st.total_negative_pairs + b.countP (fun p => decide (p.label = 0)) ∧
    (contrastiveBatchStep st b).negative_pairs_below_margin =
      st.negative_pairs_below_margin +
        b.countP (fun p => decide (p.dist < st.margin ∧ p.label = 0)) :=
  ⟨rfl, rfl⟩

/-- C7 counterexample: with anchor-positive distance 1 and anchor-negative
distance 2, the triplet step counts the sample correct both for label 0 and
for label 1, so the two labels do not require opposite orderings of the two
distances. -/
theorem triplet_label_counterexample :
    ¬ ((tripletCorrect ⟨1, 2, 0⟩ = true) ↔
        ¬ (tripletCorrect ⟨1, 2, 1⟩ = true)) := by
  norm_num [tripletCorrect, tripletPrediction]

/-- C7 amended: for binary labels the per-sample correct signal of the
triplet training and validation steps is independent of the label: a sample
is counted correct exactly when the anchor-positive distance is strictly
below the anchor-negative distance (the two comparisons against the label
cancel). -/
theorem triplet_correct_label_independent (t : Triple)
    (h : t.label = 0 ∨ t.label = 1) :
    tripletCorrect t = true ↔ t.dp < t.dn := by
  unfold tripletCorrect tripletPrediction
  rcases h with h | h <;> rw [h] <;> by_cases hd : t.dp < t.dn <;>
    simp [hd]

/-- Witness for the label independence of the triplet correct signal at the
sample with distances 1 and 2 and label 1. -/
theorem triplet_correct_label_independent_witness :
    ((⟨1, 2, 1⟩ : Triple).label = 0 ∨ (⟨1, 2, 1⟩ : Triple).label = 1) ∧
    (tripletCorrect ⟨1, 2, 1⟩ = true ↔
      (⟨1, 2, 1⟩ : Triple).dp < (⟨1, 2, 1⟩ : Triple).dn) :=
  ⟨by decide, triplet_correct_label_independent ⟨1, 2, 1⟩ (by decide)⟩

theorem zipWith_add_zipWith (f g : ℚ → ℚ → ℚ) (xs ys : List ℚ) :
    List.zipWith (· + ·) (List.zipWith f xs ys) (List.zipWith g xs ys) =
      List.zipWith (fun x y => f x y + g x y) xs ys := by
  induction xs generalizing ys with
  | nil => simp
  | cons x xs ih => cases ys <;> simp [ih]

/-- C3: `ContrastiveLoss.forward` leaves the module state (its margin)
unchanged and returns the mean over the batch of
`(1 - label) * distance^2 + label * max(margin - distance, 0)^2`, the
distances being the pairwise distances of the two embedding batches. -/
theorem forward_mean_formula (dist : List ℚ → List ℚ → ℚ)
    (c : ContrastiveLoss) (e1 e2 : List (List ℚ)) (label : List ℚ) :
    (c.forward dist e1 e2 label).1 = c ∧
    (c.forward dist e1 e2 label).2 =
      listMean (List.zipWith (fun d l => pairLoss c.margin d l)
        (pairwise_distance dist e1 e2) label) := by
  refine ⟨rfl, ?_⟩
  simp only [ContrastiveLoss.forward, zipWith_add_zipWith, pairLoss]

/-- C10: shape of the per-pair contrastive loss for a positive margin: a
similar pair has zero loss at distance 0 and a loss that grows
monotonically with distance; a dissimilar pair has zero loss at or beyond
the margin, strictly positive loss below it, and loss below any `ε > 0`
once the distance is within `min (ε / margin) margin` of the margin. -/
theorem contrastive_pair_shape (m d d1 d2 ε : ℚ) (hm : 0 < m)
    (hε : 0 < ε) :
    pairLoss m 0 0 = 0 ∧
    (0 ≤ d1 → d1 ≤ d2 → pairLoss m d1 0 ≤ pairLoss m d2 0) ∧
    (m ≤ d → pairLoss m d 1 = 0) ∧
    (d < m → 0 < pairLoss m d 1) ∧
    (m - min (ε / m) m < d → d < m → pairLoss m d 1 < ε) := by
  refine ⟨by simp [pairLoss], ?_, ?_, ?_, ?_⟩
  · intro h1 h12
    simp only [pairLoss]
    have : d1 ^ 2 ≤ d2 ^ 2 := pow_le_pow_left h1 h12 2
    nlinarith [this]
  · intro hd
    have : max (m - d) 0 = 0 := max_eq_right (by linarith)
    simp [pairLoss, this]
  · intro hd
    have hmax : max (m - d) 0 = m - d := max_eq_left (by linarith)
    simp only [pairLoss, hmax]
    nlinarith [sq_nonneg (m - d)]
  · intro hlo hhi
    have hmax : max (m - d) 0 = m - d := max_eq_left (by linarith)
    have hδm : min (ε / m) m ≤ ε / m := min_le_left _ _
    have hδm2 : min (ε / m) m ≤ m := min_le_right _ _
    have hmd : 0 < m - d := by linarith
    have hmd2 : m - d < min (ε / m) m := by linarith
    have hsq : (m - d) ^ 2 < min (ε / m) m * min (ε / m) m := by
      nlinarith [hmd, hmd2]
    have hbound : min (ε / m) m * min (ε / m) m ≤ ε := by
      calc min (ε / m) m * min (ε / m) m ≤ (ε / m) * m := by
            apply mul_le_mul hδm hδm2 (le_min (by positivity) (le_of_lt hm))
              (by positivity)
        _ = ε := div_mul_cancel₀ ε (ne_of_gt hm)
    simp only [pairLoss, hmax]
    nlinarith [hsq, hbound]

/-- Witness for the contrastive pair-loss shape at margin 1 with distances
0, 1 and 2 and tolerance 1. -/
theorem contrastive_pair_shape_witness :
    (0 : ℚ) < 1 ∧ ((0 : ℚ) < 1 ∧
    (pairLoss 1 0 0 = 0 ∧
     ((0 : ℚ) ≤ 0 → (0 : ℚ) ≤ 1 → pairLoss 1 0 0 ≤ pairLoss 1 1 0) ∧
     ((1 : ℚ) ≤ 2 → pairLoss 1 2 1 = 0) ∧
     ((2 : ℚ) < 1 → 0 < pairLoss 1 2 1) ∧
     ((1 : ℚ) - min ((1 : ℚ) / 1) 1 < 2 → (2 : ℚ) < 1 → pairLoss 1 2 1 < 1))) :=
  ⟨by norm_num, by norm_num, contrastive_pair_shape 1 2 0 1 1 (by norm_num) (by norm_num)⟩

theorem mainContrastiveGo_spec (eds : List EpochData) (m b : ℚ)
    (s : List Checkpoint) (i : ℕ) :
    (mainContrastiveGo ⟨m, b, s⟩ i eds).saved =
      s ++ selectImproving b (contrastiveOutcomes m i eds) ∧
    (mainContrastiveGo ⟨m, b, s⟩ i eds).best_score =
      runningBest b (contrastiveOutcomes m i eds) := by
  induction eds generalizing m b s i with
  | nil => simp [mainContrastiveGo, selectImproving, runningBest, contrastiveOutcomes]
  | cons e rest ih =>
    simp only [mainContrastiveGo, contrastiveOutcomes, selectImproving,
      runningBest, List.foldl_cons]
    by_cases hv : (validate_contrastive
        ⟨(train_contrastive m e.trainBatches).margin, e.modelTag⟩
        e.valBatches).2.2 > b
    · have hstep : mainContrastiveEpoch ⟨m, b, s⟩ i e =
          ⟨(train_contrastive m e.trainBatches).margin,
           (validate_contrastive
             ⟨(train_contrastive m e.trainBatches).margin, e.modelTag⟩
             e.valBatches).2.2,
           s ++ [⟨i, e.modelTag, (train_contrastive m e.trainBatches).train_loss,
             (validate_contrastive
               ⟨(train_contrastive m e.trainBatches).margin, e.modelTag⟩
               e.valBatches).2.2⟩]⟩ := by
        simp only [mainContrastiveEpoch, if_pos hv]
      rw [hstep, if_pos hv]
      have hmax : max b (validate_contrastive
          ⟨(train_contrastive m e.trainBatches).margin, e.modelTag⟩
          e.valBatches).2.2 =
          (validate_contrastive
            ⟨(train_contrastive m e.trainBatches).margin, e.modelTag⟩
            e.valBatches).2.2 := max_eq_right (le_of_lt hv)
      rw [hmax]
      obtain ⟨h1, h2⟩ := ih (train_contrastive m e.trainBatches).margin _ _ (i + 1)
      rw [h1, h2, List.append_assoc]
      exact ⟨rfl, rfl⟩
    · have hstep : mainContrastiveEpoch ⟨m, b, s⟩ i e =
          ⟨(train_contrastive m e.trainBatches).margin, b, s⟩ := by
        simp only [mainContrastiveEpoch, if_neg hv]
      rw [hstep, if_neg hv]
      have hmax : max b (validate_contrastive
          ⟨(train_contrastive m e.trainBatches).margin, e.modelTag⟩
          e.valBatches).2.2 = b := max_eq_left (le_of_not_lt hv)
      rw [hmax]
      exact ih (train_contrastive m e.trainBatches).margin b s (i + 1)

theorem mainTripletGo_spec (eds : List TripletEpochData) (b : ℚ)
    (s : List Checkpoint) (i : ℕ) :
    (mainTripletGo ⟨b, s⟩ i eds).saved =
      s ++ selectImproving b (tripletOutcomes i eds) ∧
    (mainTripletGo ⟨b, s⟩ i eds).best_score =
      runningBest b (tripletOutcomes i eds) := by
  induction eds generalizing b s i with
  | nil => simp [mainTripletGo, selectImproving, runningBest, tripletOutcomes]
  | cons e rest ih =>
    simp only [mainTripletGo, tripletOutcomes, selectImproving, runningBest,
      List.foldl_cons]
    by_cases hv : (validate_triplet e.valBatches).2 > b
    · have hstep : mainTripletEpoch ⟨b, s⟩ i e =
          ⟨(validate_triplet e.valBatches).2,
           s ++ [⟨i, e.modelTag, (train_triplet e.trainBatches).1,
             (validate_triplet e.valBatches).2⟩]⟩ := by
        simp only [mainTripletEpoch, if_pos hv]
      rw [hstep, if_pos hv, max_eq_right (le_of_lt hv)]
      obtain ⟨h1, h2⟩ := ih (validate_triplet e.valBatches).2 _ (i + 1)
      rw [h1, h2, List.append_assoc]
      exact ⟨rfl, rfl⟩
    · have hstep : mainTripletEpoch ⟨b, s⟩ i e = ⟨b, s⟩ := by
        simp only [mainTripletEpoch, if_neg hv]
      rw [hstep, if_neg hv, max_eq_left (le_of_not_lt hv)]
      exact ih b s (i + 1)

/-- C2: in both epoch drivers a checkpoint holding the epoch index, the
model parameters, the last train loss and the validation accuracy is
written in an epoch if and only if that epoch's validation accuracy
strictly exceeds the best-so-far value, initially 0, and exactly then the
best-so-far value becomes that accuracy: the saved checkpoints are the
improving subsequence of the per-epoch outcomes and the final best score
is the running best of the outcomes. -/
theorem checkpoint_iff_improvement (margin : ℚ) (eds : List EpochData)
    (teds : List TripletEpochData) :
    (main_contrastive margin eds).saved =
      selectImproving 0 (contrastiveOutcomes margin 0 eds) ∧
    (main_contrastive margin eds).best_score =
      runningBest 0 (contrastiveOutcomes margin 0 eds) ∧
    (main_triplet teds).saved = selectImproving 0 (tripletOutcomes 0 teds) ∧
    (main_triplet teds).best_score = runningBest 0 (tripletOutcomes 0 teds) := by
  obtain ⟨h1, h2⟩ := mainContrastiveGo_spec eds margin 0 [] 0
  obtain ⟨h3, h4⟩ := mainTripletGo_spec teds 0 [] 0
  exact ⟨by rw [main_contrastive, h1, List.nil_append],
         by rw [main_contrastive, h2],
         by rw [main_triplet, h3, List.nil_append],
         by rw [main_triplet, h4]⟩

end ADSiamese
